import Mathlib

/-!
# Verification of the nostragram relay client and note-assembly pipeline

A shallow embedding of the core subsystem of the repository: the relay
client (`src/infrastructure/nostr/nostrClient.ts`) and the note-assembly
pipeline (`src/infrastructure/services/NoteService.ts`).

Conventions of the embedding:
* Asynchronous operations that can throw become `Except`-valued functions.
* External collaborators (NDK relay library, the platform URL parser, the
  HTTP client, the NIP-07 signer, Unicode property lookup) become explicit
  function-typed parameters, bundled into environment structures.
* Observable side effects that the claims talk about (HTTP GETs, signer
  handshake, collaborator calls, inter-attempt delays) are returned as
  explicit logs or counters alongside the result.
* JavaScript truthiness of strings/numbers is modelled explicitly where the
  source relies on it (`""` and `0` and `undefined` are falsy).
-/

namespace Nostragram

/-- Models the JavaScript unary `+` conversion applied to the decimal strings this
client produces (`+unsignedEvent.tags[1][1]`): parse the digits, defaulting to 0. -/
def jsToNumber (s : String) : Nat :=
  if s.data ≠ [] ∧ s.data.all Char.isDigit then
    s.data.foldl (fun n c => n * 10 + (c.toNat - '0'.toNat)) 0
  else 0

/-- `String.prototype.startsWith`, on the underlying character lists. -/
def jsStartsWith (s pre : String) : Bool :=
  pre.data.isPrefixOf s.data

/-- `String.prototype.endsWith`, on the underlying character lists. -/
def jsEndsWith (s suf : String) : Bool :=
  suf.data.reverse.isPrefixOf s.data.reverse

/-- `String.prototype.trim`: strip leading and trailing whitespace. -/
def jsTrim (s : String) : String :=
  String.mk (((s.data.dropWhile Char.isWhitespace).reverse.dropWhile
    Char.isWhitespace).reverse)

/-- `String.prototype.split` with a single-character separator (as in
`pathname.split('.')`): the list of separator-free chunks; splitting the
empty string yields `[""]`, a trailing separator yields a trailing `""`. -/
def jsSplitOnChar (sep : Char) : List Char → List Char → List (List Char)
  | [], acc => [acc.reverse]
  | c :: rest, acc =>
    if c = sep then acc.reverse :: jsSplitOnChar sep rest []
    else jsSplitOnChar sep rest (c :: acc)

/-- `String.prototype.toLowerCase` (ASCII case folding suffices here). -/
def jsToLowerCase (s : String) : String :=
  String.mk (s.data.map Char.toLower)

/-- JavaScript `String.prototype.length`: the number of UTF-16 code units.
Characters above the basic multilingual plane count as two. -/
def jsUtf16Length (s : String) : Nat :=
  s.data.foldl (fun n c => n + (if c.toNat < 0x10000 then 1 else 2)) 0

/-! ## Retry wrapper (`nostrClient.ts`, `#fetchWithRetry`) -/

/-- `const FetchTimeout = 1000` (per-attempt timeout in milliseconds). -/
def FetchTimeout : Nat := 1000

/-- `const MaxRetries = 3`. -/
def MaxRetries : Nat := 3

/-- `const RetryDelay = 100` (inter-attempt delay in milliseconds). -/
def RetryDelay : Nat := 100

/-- Relay/operation errors surfaced through the retry wrapper.
`message` models a plain `Error(...)` (including the per-attempt
`'Operation timeout'` rejection). `retriesExhausted` is modelled from the
spec's error taxonomy (§7) — no such wrapper class exists anywhere in the
source snapshot; it is introduced here so that the spec's claim about it
can be stated against the code. -/
inductive RelayError where
  | message (msg : String)
  | retriesExhausted (cause : RelayError)
deriving DecidableEq, Repr

/-- `#fetchWithRetry(operation, retries = 0)`.

The wrapped `operation` is modelled as a function from the attempt index to
that attempt's outcome (a timeout of the `Promise.race` is just one kind of
`.error`). Returns the final outcome together with the number of times the
operation was invoked and the number of inter-attempt delays
(`await this.delay(RetryDelay)`) performed. Mirrors the source: on failure,
retry while `retries < MaxRetries - 1`, otherwise rethrow the last error. -/
def fetchWithRetry {α E : Type} (operation : Nat → Except E α) (retries : Nat) :
    Except E α × Nat × Nat :=
  match operation retries with
  | .ok v => (.ok v, 1, 0)
  | .error e =>
    if h : retries < MaxRetries - 1 then
      let r := fetchWithRetry operation (retries + 1)
      (r.1, r.2.1 + 1, r.2.2 + 1)
    else
      (.error e, 1, 0)
termination_by MaxRetries - retries
decreasing_by simp [MaxRetries] at h ⊢; omega

/-! ## Nostr events and the zap payment flow (`nostrClient.ts`) -/

/-- The `NostrEvent` shape used by the zap flow: kind, pubkey, creation time,
tag list, free-text content, and the optional `id`/`sig` fields filled in
later in the lifecycle. -/
structure NostrEvent where
  kind : Nat
  pubkey : String
  created_at : Nat
  tags : List (List String)
  content : String
  id : Option String := none
  sig : Option String := none
deriving DecidableEq, Repr

/-- `NostrClient.Relays`: the fixed relay list. -/
def Relays : List String :=
  ["wss://relay.hakua.xyz", "wss://relay.damus.io", "wss://relay.nostr.band"]

/-- Serialization helper for tag lists (each tag a JSON-style array of strings). -/
def serializeTags (tags : List (List String)) : String :=
  String.intercalate "," (tags.map fun t => "[" ++ String.intercalate "," t ++ "]")

/-- Modelled from the spec: `generateEventId`
(`src/infrastructure/nostr/utils.ts`, which is not in the source snapshot)
computes "a deterministic hash of the canonical serialization of the
remaining fields" — kind, pubkey, created_at, tags and content; `id` and
`sig` are excluded. We model the hash as the canonical serialization
itself: a deterministic, injective function of exactly those fields. -/
def generateEventId (ev : NostrEvent) : String :=
  "[0," ++ ev.pubkey ++ "," ++ toString ev.created_at ++ "," ++ toString ev.kind ++
    ",[" ++ serializeTags ev.tags ++ "]," ++ ev.content ++ "]"

/-- `NDKKind.ZapRequest` (NIP-57 kind 9734). -/
def ZapRequestKind : Nat := 9734

/-- The LNURL-pay capability descriptor returned by the provider's metadata
endpoint. Missing/falsy JSON fields are modelled as `""` (strings) and
`none` (numbers); the source relies on JavaScript truthiness when checking
them. -/
structure LnurlPay where
  callback : String := ""
  minSendable : Option Nat := none
  maxSendable : Option Nat := none
  allowsNostr : Bool := false
  nostrPubkey : String := ""
deriving DecidableEq, Repr

/-- The body of a successful zap-endpoint response (`response.data`):
`status`, the invoice `pr` (empty string models a missing/falsy field) and
the optional `verify` / `successAction` payloads. -/
structure ZapEndpointData where
  status : String := ""
  pr : String := ""
  verify : Option String := none
  successAction : Option String := none
deriving DecidableEq, Repr

/-- Zap-flow error taxonomy (`nostrErrors.ts`, imported by the client
but not in the source snapshot; constructors and payloads follow the use
sites in `nostrClient.ts`). -/
inductive ZapError where
  | unknownUser (nip05Id : String)
  | requestLnurlPay
  | getZapEndpointCallbackUrl
  | minSendableConstraint (amount minSendable : Nat)
  | maxSendableConstraint (amount maxSendable : Nat)
  | callZapEndpoint
  | invoiceNotFound
deriving DecidableEq, Repr

/-- External collaborators of the zap flow, as explicit functions.
`resolveNip05` models `NDKUser.fromNip05` (`none` = resolution failure);
`httpGetLnurlPay`/`httpGetZapEndpoint` model `axios.get` against the two
endpoints (`none` = network failure or unusable body); `toLnurlPayUrl` and
`toBech32EncodedLnurl` are modelled from the spec (`lnurlPay.ts` is not in
the snapshot): they derive the provider's pay-endpoint URL from a payment
address, resp. bech32-encode it. -/
structure ZapEnv where
  userPubkey : String
  now : Nat
  resolveNip05 : String → Option String
  toLnurlPayUrl : String → String
  toBech32EncodedLnurl : String → String
  sign : NostrEvent → String
  encodeUriComponentFn : String → String
  httpGetLnurlPay : String → Option LnurlPay
  httpGetZapEndpoint : String → Option ZapEndpointData

/-- `JSON.stringify({ lud16 })` as produced in `#getZapEndpointWithParams`. -/
def contentOfLud16 (lud16 : String) : String :=
  "\x7b\"lud16\":\"" ++ lud16 ++ "\"\x7d"

/-- `JSON.parse(metadata.content)` followed by the `{ lud16 }` destructuring in
`#requestLnurlPay`, modelled on exactly the strings `contentOfLud16`
produces: strip the 10-character prefix and the 2-character suffix. -/
def parseLud16 (content : String) : String :=
  String.mk (((content.data).drop 10).dropLast.dropLast)

/-- Model-level `JSON.stringify` of a Nostr event (field insertion order of
the object literal in `#makeZapRequest`; escaping is not modelled — the
string is only passed around opaquely as a query parameter). -/
def jsonOfNostrEvent (ev : NostrEvent) : String :=
  "\x7b\"kind\":" ++ toString ev.kind ++
    ",\"pubkey\":\"" ++ ev.pubkey ++
    "\",\"created_at\":" ++ toString ev.created_at ++
    ",\"tags\":[" ++ serializeTags ev.tags ++
    "],\"content\":\"" ++ ev.content ++ "\"" ++
    (match ev.id with | some i => ",\"id\":\"" ++ i ++ "\"" | none => "") ++
    (match ev.sig with | some s => ",\"sig\":\"" ++ s ++ "\"" | none => "") ++
    "\x7d"

/-- `#makeZapRequest(nip05Id, msat)`: resolve the recipient, build the
unsigned zap request with the four tags `[relays, amount, lnurl, p]`,
compute the canonical event id over exactly those fields, then append the
self-referential `e` tag carrying that id. -/
def makeZapRequest (env : ZapEnv) (nip05Id : String) (msat : Nat) :
    Except ZapError NostrEvent :=
  match env.resolveNip05 nip05Id with
  | none => .error (.unknownUser nip05Id)
  | some toPubkey =>
    let unsignedEvent : NostrEvent :=
      { kind := ZapRequestKind
        pubkey := env.userPubkey
        created_at := env.now
        tags := [ "relays" :: Relays,
                  ["amount", toString msat],
                  ["lnurl", env.toBech32EncodedLnurl (env.toLnurlPayUrl nip05Id)],
                  ["p", toPubkey] ]
        content := "zap request" }
    let eventId := generateEventId unsignedEvent
    .ok { unsignedEvent with tags := unsignedEvent.tags ++ [["e", eventId]] }

/-- JavaScript truthiness of an optional numeric field
(`lnurlPay.minSendable && ...`): present and non-zero. -/
def truthyNat (n : Option Nat) : Bool :=
  match n with
  | some m => decide (m ≠ 0)
  | none => false

/-- `#requestLnurlPay(metadata)`: extract `lud16` from the metadata content,
GET the LNURL-pay metadata endpoint, and reject bodies that do not
advertise Nostr support (`!body.allowsNostr || !body.nostrPubkey`). Returns
the result together with the list of URLs GETted. -/
def requestLnurlPay (env : ZapEnv) (metadata : NostrEvent) :
    Except Unit LnurlPay × List String :=
  let lud16 := parseLud16 metadata.content
  let lnurlPayUrl := env.toLnurlPayUrl lud16
  match env.httpGetLnurlPay lnurlPayUrl with
  | none => (.error (), [lnurlPayUrl])
  | some body =>
    if !body.allowsNostr || body.nostrPubkey = "" then (.error (), [lnurlPayUrl])
    else (.ok body, [lnurlPayUrl])

/-- `#getZapEndpointWithParams(unsignedEvent, sig, lud16)`: build the kind-0
metadata event (its `id` is the id stored in the appended `e` tag,
`tags[4][1]`), fetch the LNURL-pay metadata, check the callback URL, then
validate the requested amount (`+tags[1][1]`) against the provider's
min/max sendable bounds before assembling the callback URL with its
`amount`, `nostr` and `lnurl` query parameters. Returns the outcome and
the list of URLs GETted. -/
def getZapEndpointWithParams (env : ZapEnv) (unsignedEvent : NostrEvent)
    (sig lud16 : String) : Except ZapError String × List String :=
  let metadata : NostrEvent :=
    { unsignedEvent with
      id := some ((unsignedEvent.tags.getD 4 []).getD 1 "")
      kind := 0
      sig := some sig
      content := contentOfLud16 lud16 }
  match requestLnurlPay env metadata with
  | (.error _, log) => (.error .requestLnurlPay, log)
  | (.ok lnurlPay, log) =>
    let callbackUrl := lnurlPay.callback
    if callbackUrl = "" then (.error .getZapEndpointCallbackUrl, log)
    else
      let nostr := env.encodeUriComponentFn (jsonOfNostrEvent unsignedEvent)
      let amount := jsToNumber ((unsignedEvent.tags.getD 1 []).getD 1 "")
      if truthyNat lnurlPay.minSendable && decide (amount < lnurlPay.minSendable.getD 0) then
        (.error (.minSendableConstraint amount (lnurlPay.minSendable.getD 0)), log)
      else if truthyNat lnurlPay.maxSendable && decide (amount > lnurlPay.maxSendable.getD 0) then
        (.error (.maxSendableConstraint amount (lnurlPay.maxSendable.getD 0)), log)
      else
        let lnurl := (unsignedEvent.tags.getD 2 []).getD 1 ""
        let zapEndpoint := callbackUrl ++ "?amount=" ++ toString amount ++
          "&nostr=" ++ nostr ++ "&lnurl=" ++ lnurl
        (.ok zapEndpoint, log)

/-- `sendZapRequest(nip05Id, sat)`: build and sign the zap request, resolve
the zap endpoint (validating amount bounds), then — and only then — GET the
assembled callback URL and extract the invoice from the response
(`status !== 'OK'` fails with `CallZapEndpointError`, a missing `pr` with
`InvoiceNotFoundError`). Returns the outcome and the list of URLs GETted. -/
def sendZapRequest (env : ZapEnv) (nip05Id : String) (sat : Nat) :
    Except ZapError ZapEndpointData × List String :=
  let millisats := sat * 1000
  match makeZapRequest env nip05Id millisats with
  | .error e => (.error e, [])
  | .ok unsignedEvent =>
    let sig := env.sign unsignedEvent
    match getZapEndpointWithParams env unsignedEvent sig nip05Id with
    | (.error e, log) => (.error e, log)
    | (.ok zapEndpoint, log) =>
      match env.httpGetZapEndpoint zapEndpoint with
      | none => (.error .callZapEndpoint, log ++ [zapEndpoint])
      | some d =>
        if d.status ≠ "OK" then (.error .callZapEndpoint, log ++ [zapEndpoint])
        else if d.pr = "" then (.error .invoiceNotFound, log ++ [zapEndpoint])
        else (.ok d, log ++ [zapEndpoint])

/-! ## Note assembly (`NoteService.ts`) -/

/-- `const imageExtensions = [...]`. -/
def imageExtensions : List String := ["jpg", "jpeg", "png", "gif", "webp", "svg"]

/-- `const videoExtensions = [...]`. -/
def videoExtensions : List String := ["mp4", "webm", "ogg", "mov", "avi"]

/-- Modelled from the spec: `Media` (`domain/entities/Note.ts` is not in the
snapshot) is a "tagged value: kind image|video|youtube, url". -/
inductive MediaType where
  | image
  | video
  | youtube
deriving DecidableEq, Repr

/-- A classified media item `{ type, url }`. -/
structure Media where
  type : MediaType
  url : String
deriving DecidableEq, Repr

/-- Splits `https://` or `http://` off the front of a character stream,
returning the scheme characters and the rest. This is the mandatory part of
the URL-scanning regex `/(https?:\/\/[^\s]+)/g`. -/
def httpSchemeSplit (cs : List Char) : Option (List Char × List Char) :=
  match cs with
  | 'h' :: 't' :: 't' :: 'p' :: 's' :: ':' :: '/' :: '/' :: rest =>
    some (['h', 't', 't', 'p', 's', ':', '/', '/'], rest)
  | 'h' :: 't' :: 't' :: 'p' :: ':' :: '/' :: '/' :: rest =>
    some (['h', 't', 't', 'p', ':', '/', '/'], rest)
  | _ => none

/-- The scanning loop of `content.match(/(https?:\/\/[^\s]+)/g)`:
left-to-right, non-overlapping, greedy matching. At each position, a match
needs the literal scheme followed by at least one non-whitespace character;
the greedy `[^\s]+` extends it to the next whitespace or the end, and
scanning resumes after the match. Every step strictly consumes input, so
recursion is by structural descent on a fuel initialized to the input
length (which therefore never runs out). -/
def scanUrlsAux (fuel : Nat) (cs : List Char) : List String :=
  match fuel with
  | 0 => []
  | fuel + 1 =>
    match httpSchemeSplit cs with
    | some (pfx, rest) =>
      let body := rest.takeWhile (fun c => !c.isWhitespace)
      if body.isEmpty then
        match cs with
        | [] => []
        | _ :: t => scanUrlsAux fuel t
      else
        String.mk (pfx ++ body) :: scanUrlsAux fuel (rest.drop body.length)
    | none =>
      match cs with
      | [] => []
      | _ :: t => scanUrlsAux fuel t

/-- `content.match(/(https?:\/\/[^\s]+)/g)` (a `null` result of `match` is
already normalised to `[]`). -/
def scanUrls (cs : List Char) : List String :=
  scanUrlsAux cs.length cs

/-- The extension computation of `getUrlExtension` on an already-parsed
pathname: `pathname.split('.')`, then the last part lower-cased;
`undefined` when the path contains no `'.'`. -/
def urlExtensionOfPathname (pathname : String) : Option String :=
  let parts := jsSplitOnChar '.' pathname.data []
  if parts.length > 1 then some (jsToLowerCase (String.mk (parts.getLastD []))) else none

/-- `getUrlExtension(url)`: `new URL(url).pathname` — which **throws** on a
malformed URL, there is no try/catch — then the extension of the pathname.
The platform URL parser is the explicit parameter `parse` (`none` models
the constructor throwing). -/
def getUrlExtension (parse : String → Option String) (url : String) :
    Except Unit (Option String) :=
  match parse url with
  | none => .error ()
  | some pathname => .ok (urlExtensionOfPathname pathname)

/-- JavaScript truthiness of `string | undefined`. -/
def truthyStr (s : Option String) : Bool :=
  match s with
  | some x => decide (x ≠ "")
  | none => false

/-- `isImageUrl(url)`: `extension ? imageExtensions.includes(extension) : false`. -/
def isImageUrl (parse : String → Option String) (url : String) : Except Unit Bool :=
  (getUrlExtension parse url).map fun ext =>
    if truthyStr ext then imageExtensions.contains (ext.getD "") else false

/-- `isVideoUrl(url)`: `extension ? videoExtensions.includes(extension) : false`. -/
def isVideoUrl (parse : String → Option String) (url : String) : Except Unit Bool :=
  (getUrlExtension parse url).map fun ext =>
    if truthyStr ext then videoExtensions.contains (ext.getD "") else false

/-- `[\w-]` of the YouTube regex: ASCII word characters or a hyphen. -/
def isWordCharJs (c : Char) : Bool :=
  ('a' ≤ c && c ≤ 'z') || ('A' ≤ c && c ≤ 'Z') || ('0' ≤ c && c ≤ '9') || c = '_' || c = '-'

/-- The two host alternatives `youtube\.com\/` and `youtu\.be\/` of the
YouTube regex, as a character-stream prefix check returning the remainder. -/
def youtubeHostAt (cs : List Char) : Option (List Char) :=
  match cs with
  | 'y' :: 'o' :: 'u' :: 't' :: 'u' :: 'b' :: 'e' :: '.' :: 'c' :: 'o' :: 'm' :: '/' :: rest =>
    some rest
  | 'y' :: 'o' :: 'u' :: 't' :: 'u' :: '.' :: 'b' :: 'e' :: '/' :: rest => some rest
  | _ => none

/-- `isYouTubeUrl(url)` tests
`/(?:https?:\/\/)?(?:www\.)?(?:youtube\.com|youtu\.be)\/(?:watch\?v=)?[\w-]+/`.
All three leading groups are optional, so an (unanchored) match exists
exactly when `youtube.com/` or `youtu.be/` occurs somewhere followed by at
least one `[\w-]` character: when the following text is `watch?v=…` the
optional group either consumes it or the engine backtracks and `[\w-]+`
consumes the `w` of `watch` itself. -/
def hasYoutubeCore (cs : List Char) : Bool :=
  match cs with
  | [] => false
  | _ :: t =>
    (match youtubeHostAt cs with
     | some (a :: _) => isWordCharJs a
     | some [] => false
     | none => false) || hasYoutubeCore t

/-- `isYouTubeUrl(url)` (see `hasYoutubeCore`). -/
def isYouTubeUrl (url : String) : Bool :=
  hasYoutubeCore url.data

/-- The body of `extractMedia`'s `for (const url of matches)` loop: classify
each URL in order — image, else video, else YouTube, else skipped — with
any thrown extension-lookup error propagating out of the loop. -/
def classifyLoop (parse : String → Option String) : List String → Except Unit (List Media)
  | [] => .ok []
  | url :: rest => do
    let isImg ← isImageUrl parse url
    if isImg then
      let ms ← classifyLoop parse rest
      return ⟨.image, url⟩ :: ms
    else
      let isVid ← isVideoUrl parse url
      if isVid then
        let ms ← classifyLoop parse rest
        return ⟨.video, url⟩ :: ms
      else if isYouTubeUrl url then
        let ms ← classifyLoop parse rest
        return ⟨.youtube, url⟩ :: ms
      else
        classifyLoop parse rest

/-- `extractMedia(event)`: scan the content for URL matches and run the
classification loop over them in encounter order. -/
def extractMedia (parse : String → Option String) (content : String) :
    Except Unit (List Media) :=
  classifyLoop parse (scanUrls content.data)

/-- The successful classification of one URL, as a pure function (defined for
comparison with `classifyLoop`; on a URL whose parse fails the loop throws
instead and this function's value is irrelevant). -/
def classifyOk (parse : String → Option String) (url : String) : Option Media :=
  match parse url with
  | none => none
  | some pathname =>
    let ext : Option String := urlExtensionOfPathname pathname
    if truthyStr ext && imageExtensions.contains (ext.getD "") then some ⟨.image, url⟩
    else if truthyStr ext && videoExtensions.contains (ext.getD "") then some ⟨.video, url⟩
    else if isYouTubeUrl url then some ⟨.youtube, url⟩
    else none

/-- Profile data fetched by the profile-store collaborator; its fields are
irrelevant to the claims, so it is kept opaque. -/
structure UserProfile where
  raw : String
deriving DecidableEq, Repr

/-- `domain/entities/User.ts`: npub, pubkey, optional profile. -/
structure User where
  npub : String
  pubkey : String
  profile : Option UserProfile := none
deriving DecidableEq, Repr

/-- Modelled from the spec: `NoteReactions`
(`domain/entities/NoteReactions.ts` is not in the snapshot): likesCount,
repostsCount, zapsAmount and the reaction-symbol-to-count mapping
(a total function defaulting to 0, modelling the JS object map with
`(customReactions[content] || 0)`). -/
structure NoteReactions where
  likesCount : Nat
  repostsCount : Nat
  zapsAmount : Nat
  customReactions : String → Nat

/-- The NDK event shape consumed by `NoteService`: id, author identity,
kind, content, tags, optional creation timestamp. -/
structure NDKEventModel where
  id : String
  authorNpub : String
  authorPubkey : String
  kind : Nat := 1
  content : String
  tags : List (List String) := []
  created_at : Option Nat := none
deriving DecidableEq, Repr

/-- The `Note` aggregate (`domain/entities/Note.ts` is presentation-side and
not in the snapshot; the constructor arguments follow the object literal in
`createNoteFromEvent`). `created_at` is kept as milliseconds since epoch
(`new Date(event.created_at * 1000)`, defaulting to epoch). -/
inductive Note where
  | mk (id : String) (author : User) (text : String) (media : List Media)
      (json : String) (replyParentNote : Option Note) (replyChildNotes : List Note)
      (reactions : NoteReactions) (created_at : Nat) : Note

/-- Field accessor. -/
def Note.replyParentNote : Note → Option Note
  | .mk _ _ _ _ _ p _ _ _ => p

/-- Field accessor. -/
def Note.noteId : Note → String
  | .mk i _ _ _ _ _ _ _ _ => i

/-- External collaborators of `NoteService`, as explicit functions:
the profile store, the relay client's `fetchEvent` (by id; `none` = not
found) and filtered fetches for reaction-kind and repost-kind events
referencing a note id, the zap aggregation collaborator, the platform URL
parser (`new URL(url).pathname`; `none` = the constructor throws), and the
platform Unicode `\p{Emoji}` property used by the reaction regex. -/
structure NoteServiceEnv where
  fetchProfile : String → Option UserProfile
  fetchEvent : String → Option NDKEventModel
  fetchReactionEvents : String → List NDKEventModel
  fetchRepostEvents : String → List NDKEventModel
  calculateZapsAmount : String → Nat
  parseUrlPathname : String → Option String
  isEmojiChar : Char → Bool

/-- One iteration of the reaction loop in `createNoteReactionsFromEvent`,
acting on the pair (likesCount, customReactions). The event's content is
trimmed; `'+'` or empty content counts as a like; content wrapped in colons
or consisting of a single character (one UTF-16 code unit, as
`content.length === 1` counts code units) matching `/\p{Emoji}/u` counts as
a custom reaction keyed by the trimmed content; anything else is ignored. -/
def reactionStep (isEmojiChar : Char → Bool) (st : Nat × (String → Nat))
    (re : NDKEventModel) : Nat × (String → Nat) :=
  let content := jsTrim re.content
  if content = "+" ∨ content = "" then
    (st.1 + 1, st.2)
  else if (jsStartsWith content ":" && jsEndsWith content ":")
      || (decide (jsUtf16Length content = 1) && content.data.any isEmojiChar) then
    (st.1, fun s => if s = content then st.2 s + 1 else st.2 s)
  else
    st

/-- The reaction loop of `createNoteReactionsFromEvent`, folded over the
fetched reaction events in order, starting from zero counts. -/
def aggregateReactions (isEmojiChar : Char → Bool) (events : List NDKEventModel) :
    Nat × (String → Nat) :=
  events.foldl (reactionStep isEmojiChar) (0, fun _ => 0)

/-- `createNoteReactionsFromEvent(event)`: aggregate the reaction-kind
events referencing the note into likes/custom-reaction counts, count the
repost-kind events, and take the zap total from the aggregation
collaborator. -/
def createNoteReactionsFromEvent (env : NoteServiceEnv) (event : NDKEventModel) :
    NoteReactions :=
  let reactionEvents := env.fetchReactionEvents event.id
  let counts := aggregateReactions env.isEmojiChar reactionEvents
  let repostEvents := env.fetchRepostEvents event.id
  { likesCount := counts.1
    repostsCount := repostEvents.length
    zapsAmount := env.calculateZapsAmount event.id
    customReactions := counts.2 }

/-- `event.tags.find((tag) => tag[0] === 'e')?.[1]`. -/
def replyEventIdOf (tags : List (List String)) : Option String :=
  (tags.find? fun tag => tag.headD "" = "e").bind fun tag => tag.get? 1

/-- Model-level `JSON.stringify(event.rawEvent())` snapshot. -/
def jsonOfRawEvent (ev : NDKEventModel) : String :=
  "\x7b\"id\":\"" ++ ev.id ++ "\",\"pubkey\":\"" ++ ev.authorPubkey ++
    "\",\"kind\":" ++ toString ev.kind ++
    ",\"created_at\":" ++ toString (ev.created_at.getD 0) ++
    ",\"tags\":[" ++ serializeTags ev.tags ++
    "],\"content\":\"" ++ ev.content ++ "\"\x7d"

/-- `createNoteFromEvent(event, depth = 0)`: resolve the author profile,
extract media (a thrown extension-lookup error propagates and aborts the
assembly), snapshot the raw event, and — only when `depth === 0` and the
`e` reply tag yields a truthy id — fetch the reply parent and assemble it
at depth 1; an event assembled at any non-zero depth never follows its
reply tag. `created_at` defaults to epoch. -/
def createNoteGo (env : NoteServiceEnv) (fuel : Nat) (event : NDKEventModel)
    (depth : Nat) : Except Unit Note := do
  let profile := env.fetchProfile event.authorNpub
  let author : User :=
    { npub := event.authorNpub, pubkey := event.authorPubkey, profile := profile }
  let media ← extractMedia env.parseUrlPathname event.content
  let json := jsonOfRawEvent event
  let replyEventId := replyEventIdOf event.tags
  -- `replyEventId && depth === 0 ? await fetchEvent(replyEventId) : undefined`
  -- (an empty-string id is falsy and is not fetched)
  let replyParentNote ←
    if depth = 0 then
      match (match replyEventId with
             | some rid => if rid = "" then none else env.fetchEvent rid
             | none => none) with
      | some replyEvent =>
        match fuel with
        | fuel + 1 => (createNoteGo env fuel replyEvent 1).map some
        | 0 => pure (none : Option Note) -- unreachable from the entry point
      | none => pure (none : Option Note)
    else
      pure (none : Option Note)
  return Note.mk event.id author event.content media json replyParentNote []
    (createNoteReactionsFromEvent env event)
    ((event.created_at.getD 0) * 1000)

/-- `createNoteFromEvent(event, depth)`. The recursive call is made only in
the `depth === 0` branch and passes `depth = 1`, so the recursion depth is
bounded by one; `createNoteGo`'s fuel of 1 makes that bound structural and
is never exhausted on a reachable path. -/
def createNoteFromEvent (env : NoteServiceEnv) (event : NDKEventModel)
    (depth : Nat) : Except Unit Note :=
  createNoteGo env 1 event depth

/-! ## Session singleton (`NostrClient.connect`) -/

/-- The cached client session: the NDK handle is irrelevant to the claims,
so a session is represented by the signed-in user identity and their
fetched profile. -/
structure ClientSession where
  userPubkey : String
  userProfile : Option UserProfile := none
deriving DecidableEq, Repr

/-- Errors of `connect()`. -/
inductive ConnectError where
  | signerUnavailable
  | connectionError
deriving DecidableEq, Repr

/-- The observable collaborator interactions of `connect()`:
`signer.blockUntilReady()`, `ndk.connect(1)`, `user.fetchProfile()`. -/
inductive ConnectEffect where
  | signerHandshake
  | openRelayConnections
  | fetchProfile
deriving DecidableEq, Repr

/-- The collaborators of `connect()`: the NIP-07 signer (its user identity;
`none` = the handshake does not complete within the 60-second bound),
relay reachability, and the profile store. -/
structure ConnectEnv where
  signerUser : Option String
  relayConnectOk : Bool
  fetchProfile : String → Option UserProfile

/-- `NostrClient.connect()` acting on the static singleton
`NostrClient.#nostrClient`, modelled by explicit state passing: the
`Option ClientSession` before the call comes in, the (possibly updated)
singleton comes out, together with the result and the list of collaborator
interactions performed. An existing session is returned immediately;
otherwise the signer handshake, relay connection and profile fetch run and
the fresh session is cached. -/
def connect (env : ConnectEnv) (st : Option ClientSession) :
    Except ConnectError ClientSession × Option ClientSession × List ConnectEffect :=
  match st with
  | some c => (.ok c, some c, [])
  | none =>
    match env.signerUser with
    | none => (.error .signerUnavailable, none, [.signerHandshake])
    | some pk =>
      if env.relayConnectOk then
        let c : ClientSession := { userPubkey := pk, userProfile := env.fetchProfile pk }
        (.ok c, some c,
          [.signerHandshake, .openRelayConnections, .fetchProfile])
      else
        (.error .connectionError, none, [.signerHandshake, .openRelayConnections])

/-! ## npub validation (`NostrClient.getUser`, `getUserWithProfile`) -/

/-- Errors of the user-lookup operations: the `Invalid npub: …` guard
rejection, or a propagated profile-fetch failure. -/
inductive GetUserError where
  | invalidNpub (npub : String)
  | profileFetch (msg : String)
deriving DecidableEq, Repr

/-- The npub guard shared by `getUser` and `getUserWithProfile`:
`npub.length !== 63 || !npub.startsWith('npub')`. JavaScript `.length`
counts UTF-16 code units, so the length check uses `jsUtf16Length`. -/
def npubInvalid (npub : String) : Bool :=
  decide (jsUtf16Length npub ≠ 63) || !jsStartsWith npub "npub"

/-- `getUser(npub)`: validate the npub, then delegate to the
`ndk.getUser({ npub })` collaborator (the parameter `lookup`). The second
component logs the npubs passed to the collaborator. -/
def getUser {U : Type} (lookup : String → U) (npub : String) :
    Except GetUserError U × List String :=
  if npubInvalid npub then
    (.error (.invalidNpub npub), [])
  else
    (.ok (lookup npub), [npub])

/-- `getUserWithProfile(npub)`: the same npub guard, then the
`ndk.getUser({ npub })` lookup followed by `#fetchWithRetry(() =>
user.fetchProfile())`; a final profile-fetch failure propagates. The log
records the lookup npub followed by one `"fetchProfile"` entry per
attempted profile fetch. -/
def getUserWithProfile {U P : Type} (lookup : String → U)
    (profileAttempt : Nat → Except String P) (npub : String) :
    Except GetUserError U × List String :=
  if npubInvalid npub then
    (.error (.invalidNpub npub), [])
  else
    let user := lookup npub
    let r := fetchWithRetry profileAttempt 0
    match r.1 with
    | .error e => (.error (.profileFetch e), npub :: List.replicate r.2.1 "fetchProfile")
    | .ok _ => (.ok user, npub :: List.replicate r.2.1 "fetchProfile")

/-! ## Concrete instances used by witnesses and counterexamples -/

/-- A concrete zap environment: resolution succeeds, the provider allows
Nostr and declares `minSendable = 5000`, `maxSendable = 10000` msat. -/
def zapEnvW : ZapEnv :=
  { userPubkey := "PK"
    now := 111
    resolveNip05 := fun _ => some "TOPK"
    toLnurlPayUrl := fun s => "https://pay/" ++ s
    toBech32EncodedLnurl := fun s => "lnurl1" ++ s
    sign := fun _ => "SIG"
    encodeUriComponentFn := id
    httpGetLnurlPay := fun _ => some
      { callback := "https://cb", minSendable := some 5000, maxSendable := some 10000,
        allowsNostr := true, nostrPubkey := "NP" }
    httpGetZapEndpoint := fun _ => some { status := "OK", pr := "invoice" } }

/-- The pre-`e`-tag zap request `zapEnvW` produces for `a@b`, 21000 msat. -/
def preZapEventW : NostrEvent :=
  { kind := ZapRequestKind
    pubkey := "PK"
    created_at := 111
    tags := ["relays" :: Relays, ["amount", "21000"],
             ["lnurl", "lnurl1https://pay/a@b"], ["p", "TOPK"]]
    content := "zap request" }

/-- The full zap request: `preZapEventW` with its self-referential `e` tag. -/
def zapEventW : NostrEvent :=
  { preZapEventW with tags := preZapEventW.tags ++ [["e", generateEventId preZapEventW]] }

/-- A concrete stand-in for the platform URL parser on the four URLs of
`mediaContentW` (each parses; the pathname is the part after the host). -/
def parseW : String → Option String := fun u =>
  if u = "https://a.b/x.JpG" then some "/x.JpG"
  else if u = "https://a.b/y.webm" then some "/y.webm"
  else if u = "https://youtu.be/abc" then some "/abc"
  else if u = "https://a.b/z.txt" then some "/z.txt"
  else none

/-- Note text containing an image URL (mixed-case extension), a video URL,
a YouTube URL and an unclassifiable URL, in that order. -/
def mediaContentW : String :=
  "pic https://a.b/x.JpG vid https://a.b/y.webm yt https://youtu.be/abc other https://a.b/z.txt"

/-- A stand-in for the platform URL parser that fails on `http://[` — on
which the real `new URL` constructor throws (an unclosed IPv6 host bracket
is a parse failure) — and succeeds elsewhere. -/
def parseBadW : String → Option String := fun u =>
  if u = "http://[" then none else some "/"

/-- An event whose content contains the malformed URL `http://[`. -/
def evBadW : NDKEventModel :=
  { id := "eb", authorNpub := "nb", authorPubkey := "pb", content := "x http://[ y" }

/-- A three-hop reply chain: `ev1W` replies to `ev2W` replies to `ev3W`. -/
def ev3W : NDKEventModel :=
  { id := "e3", authorNpub := "n3", authorPubkey := "p3", content := "" }

/-- Middle event of the chain (its `e` tag points at `ev3W`). -/
def ev2W : NDKEventModel :=
  { id := "e2", authorNpub := "n2", authorPubkey := "p2", content := "",
    tags := [["e", "e3"]] }

/-- Leaf event of the chain (its `e` tag points at `ev2W`). -/
def ev1W : NDKEventModel :=
  { id := "e1", authorNpub := "n1", authorPubkey := "p1", content := "",
    tags := [["e", "e2"]] }

/-- A concrete note-service environment serving the three-hop chain. -/
def noteEnvW : NoteServiceEnv :=
  { fetchProfile := fun _ => none
    fetchEvent := fun i => if i = "e2" then some ev2W else if i = "e3" then some ev3W else none
    fetchReactionEvents := fun _ => []
    fetchRepostEvents := fun _ => []
    calculateZapsAmount := fun _ => 0
    parseUrlPathname := fun _ => some "/"
    isEmojiChar := fun _ => false }

/-- A note-service environment whose URL parser is `parseBadW`. -/
def noteEnvBadW : NoteServiceEnv :=
  { fetchProfile := fun _ => none
    fetchEvent := fun _ => none
    fetchReactionEvents := fun _ => []
    fetchRepostEvents := fun _ => []
    calculateZapsAmount := fun _ => 0
    parseUrlPathname := parseBadW
    isEmojiChar := fun _ => false }

/-- A valid-looking npub (63 characters, `npub` prefix). -/
def goodNpubW : String :=
  "npub1v20e8yj9y7n58q5kfp0fahea9g4p3pmv2ufjgc6c9mcnugyeemyqu6s59g"

/-- A concrete connect environment: the signer reports `pk`, relays are
reachable, no profile data. -/
def connectEnvW : ConnectEnv :=
  { signerUser := some "pk", relayConnectOk := true, fetchProfile := fun _ => none }

/-- The note assembled from `ev2W` at depth 1 (reply tag not followed). -/
def note2W : Note :=
  Note.mk "e2" ⟨"n2", "p2", none⟩ "" [] (jsonOfRawEvent ev2W) none []
    ⟨0, 0, 0, fun _ => 0⟩ 0

/-- The note assembled from `ev1W` at depth 0: its reply parent is `note2W`
and no deeper ancestor is materialized despite the 3-hop chain. -/
def note1W : Note :=
  Note.mk "e1" ⟨"n1", "p1", none⟩ "" [] (jsonOfRawEvent ev1W) (some note2W) []
    ⟨0, 0, 0, fun _ => 0⟩ 0

/-! ## Theorems -/

/-- A third attempt (`retries = 2`) never recurses: `2 < MaxRetries - 1` fails. -/
lemma fetchWithRetry_at_two {α E : Type} (op : Nat → Except E α) :
    fetchWithRetry op 2 = (match op 2 with
      | .ok v => (.ok v, 1, 0)
      | .error e => (.error e, 1, 0)) := by
  rw [fetchWithRetry]
  cases h : op 2 <;> simp [MaxRetries]

/-- The second attempt performs at most two invocations and one delay. -/
lemma fetchWithRetry_at_one_le {α E : Type} (op : Nat → Except E α) :
    (fetchWithRetry op 1).2.1 ≤ 2 ∧ (fetchWithRetry op 1).2.2 ≤ 1 := by
  rw [fetchWithRetry]
  cases h : op 1 with
  | ok v => simp
  | error e =>
    have h2 := fetchWithRetry_at_two op
    simp only [MaxRetries]
    norm_num
    rw [h2]
    cases h3 : op 2 <;> simp

/-- The wrapper never makes more than `MaxRetries` invocations nor more than
`MaxRetries - 1` delays, starting from `retries = 0`. -/
lemma fetchWithRetry_budget {α E : Type} (op : Nat → Except E α) :
    (fetchWithRetry op 0).2.1 ≤ 3 ∧ (fetchWithRetry op 0).2.2 ≤ 2 := by
  rw [fetchWithRetry]
  cases h : op 0 with
  | ok v => simp
  | error e =>
    have h1 := fetchWithRetry_at_one_le op
    simp only [MaxRetries]
    norm_num
    omega

/-- **C2.** The retry wrapper `#fetchWithRetry` makes at most 3 total
attempts with an inter-attempt delay between consecutive attempts: an
operation that fails on the first two attempts and succeeds on the third
returns the success value after exactly 3 invocations and exactly 2
inter-attempt delays; an operation that fails on all 3 attempts surfaces
the final attempt's error (after, likewise, 3 invocations and 2 delays);
and no operation is ever invoked more than 3 times or delayed more than
twice. -/
theorem fetchWithRetry_three_attempts {α E : Type} (op opAll : Nat → Except E α)
    (v : α) (e0 e1 f0 f1 f2 : E)
    (h0 : op 0 = .error e0) (h1 : op 1 = .error e1) (h2 : op 2 = .ok v)
    (g0 : opAll 0 = .error f0) (g1 : opAll 1 = .error f1) (g2 : opAll 2 = .error f2) :
    fetchWithRetry op 0 = (.ok v, 3, 2)
    ∧ fetchWithRetry opAll 0 = (.error f2, 3, 2)
    ∧ ∀ op' : Nat → Except E α,
        (fetchWithRetry op' 0).2.1 ≤ 3 ∧ (fetchWithRetry op' 0).2.2 ≤ 2 := by
  refine ⟨?_, ?_, fun op' => fetchWithRetry_budget op'⟩
  · rw [fetchWithRetry, h0]
    simp only [MaxRetries]
    norm_num
    rw [fetchWithRetry, h1]
    simp only [MaxRetries]
    norm_num
    rw [fetchWithRetry_at_two, h2]
    simp
  · rw [fetchWithRetry, g0]
    simp only [MaxRetries]
    norm_num
    rw [fetchWithRetry, g1]
    simp only [MaxRetries]
    norm_num
    rw [fetchWithRetry_at_two, g2]
    simp

/-- Witness for C2: a concrete operation failing twice then succeeding, and
one failing on all three attempts. -/
theorem fetchWithRetry_three_attempts_witness :
    fetchWithRetry (fun n => if n = 2 then .ok 7 else .error "e") 0
        = ((.ok 7 : Except String Nat), 3, 2)
    ∧ fetchWithRetry (fun _ => (.error "x" : Except String Nat)) 0 = (.error "x", 3, 2)
    ∧ ∀ op' : Nat → Except String Nat,
        (fetchWithRetry op' 0).2.1 ≤ 3 ∧ (fetchWithRetry op' 0).2.2 ≤ 2 :=
  fetchWithRetry_three_attempts (fun n => if n = 2 then .ok 7 else .error "e")
    (fun _ => (.error "x" : Except String Nat)) 7 "e" "e" "x" "x" "x"
    rfl rfl rfl rfl rfl rfl

/-- **C8 (counterexample).** The claim says an operation failing on every
attempt surfaces a `RetriesExhausted` error wrapping the cause. On the
code, a concrete operation that always fails with `Error("boom")` makes the
wrapper surface exactly that underlying error, not a wrapper around it:
the source's final-attempt branch is a bare `throw error`. -/
theorem fetchWithRetry_no_wrapping_counterexample :
    (fetchWithRetry (fun _ => (.error (.message "boom") : Except RelayError Unit)) 0).1
        = .error (.message "boom")
    ∧ (fetchWithRetry (fun _ => (.error (.message "boom") : Except RelayError Unit)) 0).1
        ≠ .error (.retriesExhausted (.message "boom")) := by
  have h : fetchWithRetry (fun _ => (.error (.message "boom") : Except RelayError Unit)) 0
      = (.error (.message "boom"), 3, 2) := by
    rw [fetchWithRetry]
    simp only [MaxRetries]
    norm_num
    rw [fetchWithRetry]
    simp only [MaxRetries]
    norm_num
    rw [fetchWithRetry_at_two]
    simp
  rw [h]
  simp

/-- **C8 (amended).** When a wrapped operation fails on every one of its
attempts, the retry wrapper surfaces the final attempt's underlying error
unwrapped (`throw error` on the last attempt); no `RetriesExhausted`
wrapper is applied anywhere in the code. -/
theorem fetchWithRetry_surfaces_last_error_unwrapped {α E : Type}
    (op : Nat → Except E α) (f0 f1 f2 : E)
    (g0 : op 0 = .error f0) (g1 : op 1 = .error f1) (g2 : op 2 = .error f2) :
    (fetchWithRetry op 0).1 = .error f2 := by
  rw [fetchWithRetry, g0]
  simp only [MaxRetries]
  norm_num
  rw [fetchWithRetry, g1]
  simp only [MaxRetries]
  norm_num
  rw [fetchWithRetry_at_two, g2]

/-- Witness for the amended C8: the always-failing operation's final error
comes out unwrapped. -/
theorem fetchWithRetry_surfaces_last_error_unwrapped_witness :
    (fetchWithRetry (fun n => (.error (.message (toString n)) : Except RelayError Nat)) 0).1
        = .error (.message "2") :=
  fetchWithRetry_surfaces_last_error_unwrapped
    (fun n => (.error (.message (toString n)) : Except RelayError Nat))
    (.message "0") (.message "1") (.message "2") rfl rfl rfl

/-- **C1.** Zap request id computation is stable: `#makeZapRequest` builds
the four-tag event, computes `generateEventId` over exactly that pre-`e`-tag
field set (a pure, deterministic function, so computing it twice over the
same field set trivially yields the same value), and then appends the
self-referential `e` tag; the appended tag carries exactly the id of the
event with the `e` tag stripped — recomputing the id over the pre-`e`-tag
field set after the append still yields the value stored in the tag, i.e.
the append did not change the previously computed id, which was computed
without the self-reference. -/
theorem makeZapRequest_id_stable (env : ZapEnv) (nip05Id : String) (msat : Nat)
    (ev : NostrEvent) (h : makeZapRequest env nip05Id msat = .ok ev) :
    ev.tags.map (fun t => t.headD "") = ["relays", "amount", "lnurl", "p", "e"]
    ∧ ev.tags.getLast? = some ["e", generateEventId { ev with tags := ev.tags.dropLast }] := by
  unfold makeZapRequest at h
  cases hres : env.resolveNip05 nip05Id with
  | none => rw [hres] at h; exact absurd h (by simp)
  | some toPubkey =>
    rw [hres] at h
    simp only [Except.ok.injEq] at h
    subst h
    constructor
    · simp [Relays]
    · simp [List.getLast?_concat, List.dropLast_concat]

/-- Witness for C1 at the concrete request built by `zapEnvW`. -/
theorem makeZapRequest_id_stable_witness :
    zapEventW.tags.map (fun t => t.headD "") = ["relays", "amount", "lnurl", "p", "e"]
    ∧ zapEventW.tags.getLast?
        = some ["e", generateEventId { zapEventW with tags := zapEventW.tags.dropLast }] :=
  makeZapRequest_id_stable zapEnvW "a@b" 21000 zapEventW rfl

/-- Round trip of the `{ lud16 }` stringify/parse pair. -/
lemma parseLud16_contentOfLud16 (s : String) : parseLud16 (contentOfLud16 s) = s := by
  cases s with
  | mk l =>
    simp only [parseLud16, contentOfLud16, String.data_append]
    have h1 : ("\x7b\"lud16\":\"".data ++ l ++ "\"\x7d".data).drop 10
        = l ++ "\"\x7d".data := by
      rw [List.append_assoc]
      have : ("\x7b\"lud16\":\"".data).length = 10 := by rfl
      rw [← this, List.drop_left]
    rw [h1]
    have h2 : (l ++ "\"\x7d".data).dropLast.dropLast = l := by
      have : l ++ "\"\x7d".data = (l ++ ['"']) ++ ['\x7d'] := by simp
      rw [this, List.dropLast_concat, List.dropLast_concat]
    rw [h2]

/-- **C6.** For every zap attempt whose recipient resolves and whose
provider metadata passes the Nostr-support and callback checks, a requested
amount (in millisatoshis, as parsed back from the `amount` tag) below the
provider's truthy `minSendable` fails with `MinSendableConstraintError`,
and one above the truthy `maxSendable` fails with
`MaxSendableConstraintError`; in either case the complete list of HTTP GETs
performed by the flow is exactly the single metadata fetch — the provider's
callback URL is never contacted. -/
theorem sendZapRequest_bounds_before_callback (env : ZapEnv) (nip05Id : String)
    (sat : Nat) (toPk : String) (body : LnurlPay)
    (hres : env.resolveNip05 nip05Id = some toPk)
    (hbody : env.httpGetLnurlPay (env.toLnurlPayUrl nip05Id) = some body)
    (hallow : body.allowsNostr = true)
    (hnpk : body.nostrPubkey ≠ "")
    (hcb : body.callback ≠ "") :
    (∀ m, body.minSendable = some m → m ≠ 0 →
      jsToNumber (toString (sat * 1000)) < m →
      sendZapRequest env nip05Id sat
        = (.error (.minSendableConstraint (jsToNumber (toString (sat * 1000))) m),
           [env.toLnurlPayUrl nip05Id]))
    ∧ (∀ M, (truthyNat body.minSendable
          && decide (jsToNumber (toString (sat * 1000)) < body.minSendable.getD 0)) = false →
      body.maxSendable = some M → M ≠ 0 →
      M < jsToNumber (toString (sat * 1000)) →
      sendZapRequest env nip05Id sat
        = (.error (.maxSendableConstraint (jsToNumber (toString (sat * 1000))) M),
           [env.toLnurlPayUrl nip05Id])) := by
  constructor
  · intro m hm hm0 hlt
    simp only [sendZapRequest, makeZapRequest, hres]
    simp only [getZapEndpointWithParams, requestLnurlPay, parseLud16_contentOfLud16,
      hbody, hallow, hnpk]
    simp only [List.getD, List.getElem?_cons_succ, List.getElem?_cons_zero,
      Option.getD_some]
    simp [hcb, hm, hm0, hlt, truthyNat]
  · intro M hminFalse hM hM0 hgt
    simp only [sendZapRequest, makeZapRequest, hres]
    simp only [getZapEndpointWithParams, requestLnurlPay, parseLud16_contentOfLud16,
      hbody, hallow, hnpk]
    simp only [List.getD, List.getElem?_cons_succ, List.getElem?_cons_zero,
      Option.getD_some]
    cases hms : body.minSendable with
    | none => simp [hcb, hM, hM0, hgt, hms, truthyNat]
    | some m =>
      rw [hms] at hminFalse
      have hand : (decide (m ≠ 0)
          && decide (jsToNumber (toString (sat * 1000)) < m)) = false := by
        simpa [truthyNat] using hminFalse
      rcases Bool.and_eq_false_iff.mp hand with hf | hf
      · have hm0 : m = 0 := by simpa using hf
        simp [hcb, hM, hM0, hgt, hms, hm0, truthyNat]
      · have hnl : ¬ jsToNumber (toString (sat * 1000)) < m := by simpa using hf
        simp [hcb, hM, hM0, hgt, hms, hnl, truthyNat]

/-- Witness for C6: under `zapEnvW` (bounds 5000–10000 msat), a 1-sat zap
(1000 msat) fails the minimum bound and a 100-sat zap (100000 msat) fails
the maximum bound, each with only the metadata URL ever GETted. -/
theorem sendZapRequest_bounds_before_callback_witness :
    sendZapRequest zapEnvW "a@b" 1
      = (.error (.minSendableConstraint (jsToNumber (toString (1 * 1000))) 5000),
         [zapEnvW.toLnurlPayUrl "a@b"])
    ∧ sendZapRequest zapEnvW "a@b" 100
      = (.error (.maxSendableConstraint (jsToNumber (toString (100 * 1000))) 10000),
         [zapEnvW.toLnurlPayUrl "a@b"]) :=
  ⟨(sendZapRequest_bounds_before_callback zapEnvW "a@b" 1 "TOPK"
      { callback := "https://cb", minSendable := some 5000, maxSendable := some 10000,
        allowsNostr := true, nostrPubkey := "NP" }
      rfl rfl rfl (by decide) (by decide)).1 5000 rfl (by decide) (by decide),
   (sendZapRequest_bounds_before_callback zapEnvW "a@b" 100 "TOPK"
      { callback := "https://cb", minSendable := some 5000, maxSendable := some 10000,
        allowsNostr := true, nostrPubkey := "NP" }
      rfl rfl rfl (by decide) (by decide)).2 10000 (by decide) rfl (by decide) (by decide)⟩

/-- The classification loop either propagates a URL-parse failure as an
error, or — when every scanned URL parses — returns exactly the per-URL
classifications in input order. -/
lemma classifyLoop_characterization (parse : String → Option String)
    (urls : List String) :
    classifyLoop parse urls =
      if urls.all (fun u => (parse u).isSome) then
        .ok (urls.filterMap (classifyOk parse))
      else .error () := by
  induction urls with
  | nil => simp [classifyLoop]
  | cons url rest ih =>
    cases hp : parse url with
    | none =>
      have hstep : classifyLoop parse (url :: rest) = .error () := by
        have himg : isImageUrl parse url = .error () := by
          simp [isImageUrl, getUrlExtension, hp, Except.map]
        simp only [classifyLoop]
        rw [himg]
        rfl
      rw [hstep]
      simp [hp]
    | some pn =>
      have himg : isImageUrl parse url
          = .ok (truthyStr (urlExtensionOfPathname pn)
              && imageExtensions.contains ((urlExtensionOfPathname pn).getD "")) := by
        simp only [isImageUrl, getUrlExtension, hp, Except.map]
        cases truthyStr (urlExtensionOfPathname pn) <;> simp
      have hvid : isVideoUrl parse url
          = .ok (truthyStr (urlExtensionOfPathname pn)
              && videoExtensions.contains ((urlExtensionOfPathname pn).getD "")) := by
        simp only [isVideoUrl, getUrlExtension, hp, Except.map]
        cases truthyStr (urlExtensionOfPathname pn) <;> simp
      have hcls : classifyOk parse url
          = (if truthyStr (urlExtensionOfPathname pn)
                && imageExtensions.contains ((urlExtensionOfPathname pn).getD "") then
               some ⟨.image, url⟩
             else if truthyStr (urlExtensionOfPathname pn)
                && videoExtensions.contains ((urlExtensionOfPathname pn).getD "") then
               some ⟨.video, url⟩
             else if isYouTubeUrl url then some ⟨.youtube, url⟩
             else none) := by
        simp [classifyOk, hp]
      simp only [classifyLoop, himg, hvid, List.all_cons, hp, Option.isSome_some,
        Bool.true_and, List.filterMap_cons, hcls]
      cases hb1 : (truthyStr (urlExtensionOfPathname pn)
          && imageExtensions.contains ((urlExtensionOfPathname pn).getD "")) <;>
        cases hb2 : (truthyStr (urlExtensionOfPathname pn)
          && videoExtensions.contains ((urlExtensionOfPathname pn).getD "")) <;>
        cases hb3 : isYouTubeUrl url <;>
        cases hall : rest.all (fun u => (parse u).isSome) <;>
        simp_all [Except.map, Except.bind, Bind.bind, Monad.toBind, Except.instMonad, Except.pure]

/-- **C5.** When media extraction succeeds, the media list consists of
exactly the classifications of the scanned URLs in encounter order, where a
URL whose path has extension (the lower-cased substring after the last `.`)
in the image set classifies as `image`, one in the video set as `video`,
and otherwise the URL classifies as `youtube` exactly when it matches the
YouTube pattern, all other URLs being excluded. -/
theorem extractMedia_classification (parse : String → Option String)
    (content : String) (ms : List Media)
    (h : extractMedia parse content = .ok ms) :
    ms = (scanUrls content.data).filterMap (classifyOk parse)
    ∧ ∀ url pn, parse url = some pn →
        (∀ ext, urlExtensionOfPathname pn = some ext →
          (ext ∈ imageExtensions → classifyOk parse url = some ⟨.image, url⟩)
          ∧ (ext ∈ videoExtensions → classifyOk parse url = some ⟨.video, url⟩)
          ∧ (ext ∉ imageExtensions → ext ∉ videoExtensions →
              classifyOk parse url
                = if isYouTubeUrl url then some ⟨.youtube, url⟩ else none))
        ∧ (urlExtensionOfPathname pn = none →
            classifyOk parse url
              = if isYouTubeUrl url then some ⟨.youtube, url⟩ else none) := by
  constructor
  · rw [extractMedia, classifyLoop_characterization] at h
    by_cases hall : (scanUrls content.data).all (fun u => (parse u).isSome)
    · rw [if_pos hall] at h
      exact (Except.ok.injEq _ _ ▸ h).symm
    · rw [if_neg hall] at h
      exact absurd h (by simp)
  · intro url pn hpu
    constructor
    · intro ext hext
      have htruthy : ∀ l : List String, ext ∈ l → ("" : String) ∉ l →
          truthyStr (urlExtensionOfPathname pn) = true := by
        intro l hmem hnem
        have : ext ≠ "" := fun he => hnem (he ▸ hmem)
        simp [truthyStr, hext, this]
      refine ⟨?_, ?_, ?_⟩
      · intro himg
        have ht := htruthy imageExtensions himg (by decide)
        rw [hext] at ht
        simp [classifyOk, hpu, hext, ht, himg]
      · intro hvidm
        have ht := htruthy videoExtensions hvidm (by decide)
        rw [hext] at ht
        have hni : ext ∉ imageExtensions := by
          simp only [videoExtensions, List.mem_cons, List.not_mem_nil, or_false] at hvidm
          rcases hvidm with rfl | rfl | rfl | rfl | rfl <;> decide
        simp [classifyOk, hpu, hext, ht, hvidm, hni]
      · intro hni hnv
        simp [classifyOk, hpu, hext, hni, hnv]
    · intro hext
      simp [classifyOk, hpu, hext, truthyStr]

/-- Witness for C5: on `mediaContentW` (image with mixed-case extension,
video, YouTube link, unclassifiable `.txt` URL) the classifier produces
exactly the three media items in encounter order. -/
theorem extractMedia_classification_witness :
    ([⟨MediaType.image, "https://a.b/x.JpG"⟩, ⟨MediaType.video, "https://a.b/y.webm"⟩,
      ⟨MediaType.youtube, "https://youtu.be/abc"⟩] : List Media)
      = (scanUrls mediaContentW.data).filterMap (classifyOk parseW)
    ∧ classifyOk parseW "https://a.b/x.JpG" = some ⟨.image, "https://a.b/x.JpG"⟩
    ∧ classifyOk parseW "https://a.b/z.txt"
        = if isYouTubeUrl "https://a.b/z.txt" then
            some ⟨.youtube, "https://a.b/z.txt"⟩ else none := by
  refine ⟨(extractMedia_classification parseW mediaContentW _ rfl).1, ?_, ?_⟩
  · exact (((extractMedia_classification parseW mediaContentW
      [⟨MediaType.image, "https://a.b/x.JpG"⟩, ⟨MediaType.video, "https://a.b/y.webm"⟩,
       ⟨MediaType.youtube, "https://youtu.be/abc"⟩] rfl).2
      "https://a.b/x.JpG" "/x.JpG" rfl).1 "jpg" rfl).1 (by decide)
  · exact (((extractMedia_classification parseW mediaContentW
      [⟨MediaType.image, "https://a.b/x.JpG"⟩, ⟨MediaType.video, "https://a.b/y.webm"⟩,
       ⟨MediaType.youtube, "https://youtu.be/abc"⟩] rfl).2
      "https://a.b/z.txt" "/z.txt" rfl).1 "txt" rfl).2.2 (by decide) (by decide)

/-- **C7 (counterexample).** The claim says a failure to extract a file
extension from a malformed URL is treated as "no extension" and never
aborts note assembly. On the code, `getUrlExtension` calls
`new URL(url).pathname` with no try/catch; with the platform parser failing
on `http://[` (on which the real `URL` constructor throws), media
extraction — and with it the whole note assembly — aborts with the
propagated error. -/
theorem extractMedia_malformed_aborts_counterexample :
    extractMedia parseBadW "x http://[ y" = .error ()
    ∧ createNoteFromEvent noteEnvBadW evBadW 0 = .error () :=
  ⟨rfl, rfl⟩

/-- **C7 (amended).** A URL-like substring on which the platform URL parser
fails makes `getUrlExtension` throw, and the error propagates out of
`extractMedia` (and hence aborts note assembly); only a URL that parses but
whose path yields no extension is treated as extensionless and excluded
(unless it matches the YouTube pattern). -/
theorem extractMedia_malformed_propagates (parse : String → Option String)
    (content : String) (url : String)
    (h1 : url ∈ scanUrls content.data) (h2 : parse url = none) :
    extractMedia parse content = .error ()
    ∧ ∀ u pn, parse u = some pn → urlExtensionOfPathname pn = none →
        isYouTubeUrl u = false → classifyOk parse u = none := by
  constructor
  · rw [extractMedia, classifyLoop_characterization]
    have hall : (scanUrls content.data).all (fun u => (parse u).isSome) = false := by
      by_contra hc
      have : (scanUrls content.data).all (fun u => (parse u).isSome) = true := by
        revert hc
        cases (scanUrls content.data).all (fun u => (parse u).isSome) <;> simp
      have := (List.all_eq_true.mp this) url h1
      rw [h2] at this
      exact absurd this (by simp)
    simp [hall]
  · intro u pn hpu hext hyt
    simp [classifyOk, hpu, hext, truthyStr, hyt]

/-- Witness for the amended C7 at the concrete malformed URL `http://[`. -/
theorem extractMedia_malformed_propagates_witness :
    extractMedia parseBadW "see http://[ and http://ok" = .error ()
    ∧ classifyOk parseBadW "http://ok" = none :=
  ⟨(extractMedia_malformed_propagates parseBadW "see http://[ and http://ok"
      "http://[" (by decide) rfl).1,
   (extractMedia_malformed_propagates parseBadW "see http://[ and http://ok"
      "http://[" (by decide) rfl).2 "http://ok" "/" rfl rfl rfl⟩

/-- **C3.** Reaction aggregation (a total function — no content ever raises
an error): processing one more reaction event increments `likesCount`
exactly when the trimmed content is `"+"` or empty, and leaves the custom
counters untouched then; it increments `customReactions` exactly at the
trimmed content's key, by one, when that content is not a like and is
colon-wrapped or a single (UTF-16) emoji character; any other content
changes neither counter. `repostsCount` is exactly the number of
repost-kind events referencing the note. -/
theorem reaction_aggregation_cases (isEmojiChar : Char → Bool)
    (es : List NDKEventModel) (e : NDKEventModel) :
    ((aggregateReactions isEmojiChar (es ++ [e])).1
      = (aggregateReactions isEmojiChar es).1
        + (if jsTrim e.content = "+" ∨ jsTrim e.content = "" then 1 else 0))
    ∧ (∀ s, (aggregateReactions isEmojiChar (es ++ [e])).2 s
      = (aggregateReactions isEmojiChar es).2 s
        + (if s = jsTrim e.content ∧ ¬(jsTrim e.content = "+" ∨ jsTrim e.content = "")
              ∧ ((jsStartsWith (jsTrim e.content) ":" && jsEndsWith (jsTrim e.content) ":")
                 || (decide (jsUtf16Length (jsTrim e.content) = 1)
                     && (jsTrim e.content).data.any isEmojiChar)) = true
            then 1 else 0))
    ∧ ∀ env ev, (createNoteReactionsFromEvent env ev).repostsCount
          = (env.fetchRepostEvents ev.id).length
        ∧ (createNoteReactionsFromEvent env ev).likesCount
          = (aggregateReactions env.isEmojiChar (env.fetchReactionEvents ev.id)).1
        ∧ ∀ s, (createNoteReactionsFromEvent env ev).customReactions s
          = (aggregateReactions env.isEmojiChar (env.fetchReactionEvents ev.id)).2 s := by
  have hfold : aggregateReactions isEmojiChar (es ++ [e])
      = reactionStep isEmojiChar (aggregateReactions isEmojiChar es) e := by
    simp [aggregateReactions, List.foldl_append]
  refine ⟨?_, ?_, fun env ev => ⟨rfl, rfl, fun s => rfl⟩⟩
  · rw [hfold]
    unfold reactionStep
    by_cases h1 : jsTrim e.content = "+" ∨ jsTrim e.content = ""
    · simp [h1]
    · rw [if_neg h1]
      split_ifs <;> simp [h1]
  · intro s
    rw [hfold]
    unfold reactionStep
    by_cases h1 : jsTrim e.content = "+" ∨ jsTrim e.content = ""
    · simp [h1]
    · rw [if_neg h1]
      by_cases h2 : ((jsStartsWith (jsTrim e.content) ":" && jsEndsWith (jsTrim e.content) ":")
          || (decide (jsUtf16Length (jsTrim e.content) = 1)
              && (jsTrim e.content).data.any isEmojiChar)) = true
      · rw [if_pos h2]
        by_cases hst : s = jsTrim e.content <;> simp [hst, h1, h2]
      · rw [if_neg h2]
        simp [h1, h2]

/-- At depth 1 the fuel is never consulted: the `depth === 0` branch is not
taken. -/
lemma createNoteGo_one_fuel_irrel (env : NoteServiceEnv) (event : NDKEventModel)
    (fuel fuel' : Nat) :
    createNoteGo env fuel event 1 = createNoteGo env fuel' event 1 := by
  rw [createNoteGo.eq_def, createNoteGo.eq_def]
  simp only [Nat.one_ne_zero, reduceIte]

/-- An event assembled at depth 1 never acquires a reply parent, whatever
the fuel. -/
lemma createNoteGo_one_parent_none (env : NoteServiceEnv) (fuel : Nat)
    (event : NDKEventModel) (p : Note)
    (h : createNoteGo env fuel event 1 = .ok p) :
    Note.replyParentNote p = none := by
  rw [createNoteGo.eq_def] at h
  simp only [Nat.one_ne_zero, reduceIte, Except.bind, Bind.bind, Monad.toBind,
    Except.instMonad, Except.pure, Pure.pure] at h
  cases hm : extractMedia env.parseUrlPathname event.content with
  | error e =>
    simp only [hm] at h
    exact Except.noConfusion h
  | ok media =>
    simp only [hm] at h
    cases h
    rfl

/-- An event assembled at depth 0 (with a fuel of at least one, as at the
entry point) has no grandparent. -/
lemma createNoteGo_zero_grandparent (env : NoteServiceEnv) (fuel : Nat)
    (event : NDKEventModel) (n : Note)
    (h : createNoteGo env (fuel + 1) event 0 = .ok n) :
    (Note.replyParentNote n).bind Note.replyParentNote = none := by
  rw [createNoteGo.eq_def] at h
  simp only [reduceIte, Except.bind, Bind.bind, Monad.toBind,
    Except.instMonad, Except.pure, Pure.pure] at h
  cases hm : extractMedia env.parseUrlPathname event.content with
  | error e =>
    simp only [hm] at h
    exact Except.noConfusion h
  | ok media =>
    simp only [hm] at h
    cases hf : (match replyEventIdOf event.tags with
                | some rid => if rid = "" then none else env.fetchEvent rid
                | none => none) with
    | none =>
      simp only [hf] at h
      cases h
      rfl
    | some replyEvent =>
      simp only [hf] at h
      cases hr : createNoteGo env fuel replyEvent 1 with
      | error e =>
        simp only [hr, Except.map] at h
        exact Except.noConfusion h
      | ok p =>
        simp only [hr, Except.map] at h
        cases h
        have hp := createNoteGo_one_parent_none env fuel replyEvent p hr
        simpa [Note.replyParentNote, Option.bind] using hp

/-- **C4.** Note assembly resolves at most one level of reply ancestry: an
event assembled at depth 0 whose (truthy) `e` reply tag resolves to a
fetched event gets exactly that event's depth-1 assembly as its reply
parent; an event assembled at depth 1 never follows its reply tag and its
`replyParentNote` is unset; consequently, however deep the underlying
chain, the assembled note never has a grandparent. -/
theorem createNote_one_reply_level (env : NoteServiceEnv) (event : NDKEventModel) :
    ((createNoteFromEvent env event 0).toOption.bind Note.replyParentNote).bind
        Note.replyParentNote = none
    ∧ (createNoteFromEvent env event 1).toOption.bind Note.replyParentNote = none
    ∧ ∀ rid replyEvent note,
        replyEventIdOf event.tags = some rid → rid ≠ "" →
        env.fetchEvent rid = some replyEvent →
        createNoteFromEvent env event 0 = .ok note →
        Note.replyParentNote note = (createNoteFromEvent env replyEvent 1).toOption := by
  refine ⟨?_, ?_, ?_⟩
  · cases h0 : createNoteFromEvent env event 0 with
    | error e => simp [Except.toOption]
    | ok n =>
      have hg : createNoteGo env (0 + 1) event 0 = .ok n := h0
      have := createNoteGo_zero_grandparent env 0 event n hg
      simp [Except.toOption, this]
  · cases h1 : createNoteFromEvent env event 1 with
    | error e => simp [Except.toOption]
    | ok p =>
      have := createNoteGo_one_parent_none env 1 event p h1
      simp [Except.toOption, this]
  · intro rid replyEvent note hrid hne hfetch hok
    simp only [createNoteFromEvent] at hok
    rw [createNoteGo.eq_def] at hok
    simp only [reduceIte, Except.bind, Bind.bind, Monad.toBind,
      Except.instMonad, Except.pure, Pure.pure] at hok
    cases hm : extractMedia env.parseUrlPathname event.content with
    | error e =>
      simp only [hm] at hok
      exact Except.noConfusion hok
    | ok media =>
      simp only [hm, hrid, if_neg hne, hfetch] at hok
      cases hr : createNoteGo env 0 replyEvent 1 with
      | error e =>
        simp only [hr, Except.map] at hok
        exact Except.noConfusion hok
      | ok p =>
        simp only [hr, Except.map] at hok
        cases hok
        have hsame : createNoteGo env 0 replyEvent 1 = createNoteGo env 1 replyEvent 1 :=
          createNoteGo_one_fuel_irrel env replyEvent 0 1
        rw [hsame] at hr
        simp [createNoteFromEvent, Note.replyParentNote, hr, Except.toOption]

/-- Witness for C4 on the concrete three-hop reply chain
`ev1W → ev2W → ev3W`: the depth-0 assembly of `ev1W` has `note2W` (the
depth-1 assembly of `ev2W`) as parent, and no grandparent, even though
`ev2W` itself carries a reply tag to `ev3W`. -/
theorem createNote_one_reply_level_witness :
    Note.replyParentNote note1W = (createNoteFromEvent noteEnvW ev2W 1).toOption
    ∧ ((createNoteFromEvent noteEnvW ev1W 0).toOption.bind Note.replyParentNote).bind
        Note.replyParentNote = none :=
  ⟨(createNote_one_reply_level noteEnvW ev1W).2.2 "e2" ev2W note1W rfl
      (by decide) rfl rfl,
   (createNote_one_reply_level noteEnvW ev1W).1⟩

/-- **C9.** `connect()` is idempotent: once the singleton holds a session,
every subsequent call returns that same session, leaves the singleton
unchanged, and performs no signer handshake, relay connection or profile
fetch; and after a successful lazy initialization the singleton holds
exactly the returned session, so any later call (under any environment)
returns it effect-free. -/
theorem connect_idempotent (env env' : ConnectEnv) (c : ClientSession) :
    connect env (some c) = (.ok c, some c, [])
    ∧ ∀ st' r log, connect env none = (.ok r, st', log) →
        st' = some r ∧ connect env' st' = (.ok r, st', []) := by
  refine ⟨rfl, fun st' r log h => ?_⟩
  simp only [connect] at h
  cases hs : env.signerUser with
  | none =>
    simp only [hs] at h
    exact absurd h (by simp)
  | some pk =>
    simp only [hs] at h
    by_cases hr : env.relayConnectOk
    · rw [if_pos hr] at h
      simp only [Prod.mk.injEq, Except.ok.injEq] at h
      obtain ⟨hres, hst, -⟩ := h
      subst hres
      subst hst
      exact ⟨rfl, rfl⟩
    · rw [if_neg hr] at h
      exact absurd h (by simp)

/-- Witness for C9: a concrete first `connect` caches the session; the
second call returns it unchanged with no effects. -/
theorem connect_idempotent_witness :
    connect connectEnvW (some ⟨"pk", none⟩) = (.ok ⟨"pk", none⟩, some ⟨"pk", none⟩, [])
    ∧ (some (⟨"pk", none⟩ : ClientSession) = some (⟨"pk", none⟩ : ClientSession)
       ∧ connect connectEnvW (some (⟨"pk", none⟩ : ClientSession))
          = (.ok ⟨"pk", none⟩, some ⟨"pk", none⟩, [])) :=
  ⟨(connect_idempotent connectEnvW connectEnvW ⟨"pk", none⟩).1,
   (connect_idempotent connectEnvW connectEnvW ⟨"pk", none⟩).2
      (some ⟨"pk", none⟩) ⟨"pk", none⟩
      [.signerHandshake, .openRelayConnections, .fetchProfile] rfl⟩

/-- **C10.** `getUser` and `getUserWithProfile` validate their npub at the
public interface: an input whose length (in UTF-16 code units, as JS
`.length` counts) is not 63 or that does not start with `npub` makes both
throw the `Invalid npub` error with no collaborator contacted (empty
interaction log); an input passing the check is looked up, the log of
either operation starting with exactly that lookup. -/
theorem getUser_validates_npub {U P : Type} (lookup : String → U)
    (profileAttempt : Nat → Except String P) (npub : String)
    (hbad : ¬(jsUtf16Length npub = 63 ∧ jsStartsWith npub "npub" = true)) :
    getUser lookup npub = (.error (.invalidNpub npub), [])
    ∧ getUserWithProfile lookup profileAttempt npub = (.error (.invalidNpub npub), [])
    ∧ ∀ good : String, jsUtf16Length good = 63 → jsStartsWith good "npub" = true →
        (getUser lookup good).1 = .ok (lookup good)
        ∧ (getUser lookup good).2 = [good]
        ∧ (getUserWithProfile lookup profileAttempt good).2.head? = some good := by
  have hinv : npubInvalid npub = true := by
    simp only [npubInvalid, Bool.or_eq_true, decide_eq_true_iff, Bool.not_eq_true']
    by_cases h1 : jsUtf16Length npub = 63
    · right
      by_cases h2 : jsStartsWith npub "npub" = true
      · exact absurd ⟨h1, h2⟩ hbad
      · exact Bool.not_eq_true _ ▸ h2
    · exact Or.inl h1
  refine ⟨?_, ?_, ?_⟩
  · simp [getUser, hinv]
  · simp [getUserWithProfile, hinv]
  · intro good hlen hpre
    have hval : npubInvalid good = false := by
      simp [npubInvalid, hlen, hpre]
    refine ⟨by simp [getUser, hval], by simp [getUser, hval], ?_⟩
    simp only [getUserWithProfile, hval, Bool.false_eq_true, if_false]
    cases (fetchWithRetry profileAttempt 0).1 <;> simp

/-- Witness for C10: the 3-character string `xyz` is rejected by both
operations with an empty log; the 63-character `npub…` string is looked
up. -/
theorem getUser_validates_npub_witness :
    getUser (fun s => s) "xyz" = (.error (.invalidNpub "xyz"), [])
    ∧ getUserWithProfile (fun s => s) (fun _ => (.ok 0 : Except String Nat)) "xyz"
        = (.error (.invalidNpub "xyz"), [])
    ∧ ((getUser (fun s => s) goodNpubW).1 = .ok goodNpubW
       ∧ (getUser (fun s => s) goodNpubW).2 = [goodNpubW]
       ∧ (getUserWithProfile (fun s => s) (fun _ => (.ok 0 : Except String Nat))
            goodNpubW).2.head? = some goodNpubW) :=
  have t := getUser_validates_npub (fun s => s)
    (fun _ => (.ok 0 : Except String Nat)) "xyz" (by decide)
  ⟨t.1, t.2.1, t.2.2 goodNpubW (by decide) (by decide)⟩

end Nostragram
